import Mathlib

/-
Verification development for the batch scripting engine of the
openschichtplaner5 CLI (source file: openschichtplaner5_cli/batch_operations.py).

The Python code is shallowly embedded: Python strings are Lean Strings
(manipulated through their character lists), Python dicts are insertion-ordered
association lists with in-place update on an existing key, Python exceptions
are modelled with Except, and the external collaborators (query engine,
exporter, console) are a parameter structure.  All embedded functions keep the
names of the Python functions they translate, adapted to Lean identifier
rules.  Python string methods are modelled for ASCII text (Python is
Unicode-aware for isdigit, lower, upper; every script and every value in this
development is ASCII, where the two agree).
-/

set_option autoImplicit false

/-! ## Python string primitives -/

/-- The characters Python treats as whitespace in str.strip, str.split and
regex \s (space, tab, newline, carriage return, vertical tab, form feed). -/
def pyIsSpace (c : Char) : Bool :=
  c == ' ' || c == '\t' || c == '\n' || c == '\r' || c == '\x0b' || c == '\x0c'

/-- Python str.strip(): remove leading and trailing whitespace. -/
def pyStrip (s : String) : String :=
  String.mk (((s.data.dropWhile pyIsSpace).reverse.dropWhile pyIsSpace).reverse)

/-- Python str.startswith(pre). -/
def strStartsWith (s pre : String) : Bool :=
  pre.data.isPrefixOf s.data

/-- Python str.endswith(suf). -/
def strEndsWith (s suf : String) : Bool :=
  suf.data.isSuffixOf s.data

/-- Python s[n:] for a nonnegative n. -/
def strDrop (s : String) (n : Nat) : String :=
  String.mk (s.data.drop n)

/-- Python str.lower() (ASCII). -/
def pyLower (s : String) : String :=
  String.mk (s.data.map Char.toLower)

/-- Python str.upper() (ASCII). -/
def pyUpper (s : String) : String :=
  String.mk (s.data.map Char.toUpper)

/-- Python str.isdigit(): nonempty and every character a digit (ASCII model). -/
def pyIsDigit (s : String) : Bool :=
  !s.data.isEmpty && s.data.all Char.isDigit

/-- Numeric value of an all-digit string, as Python int() computes it
(leading zeros allowed). -/
def pyToNat (cs : List Char) : Nat :=
  cs.foldl (fun a c => a * 10 + (c.toNat - 48)) 0

/-- Python len(line) - len(line.lstrip()): number of leading whitespace
characters.  A line consisting only of a newline has level 1. -/
def get_indent_level (line : String) : Nat :=
  line.length - (line.data.dropWhile pyIsSpace).length

/-- One step list of Python str.split() (no separator): split on whitespace
runs, discarding empty pieces.  cur holds the current token reversed. -/
def splitWsAux : List Char → List Char → List String
  | [], cur => if cur.isEmpty then [] else [String.mk cur.reverse]
  | c :: rest, cur =>
    if pyIsSpace c then
      if cur.isEmpty then splitWsAux rest []
      else String.mk cur.reverse :: splitWsAux rest []
    else splitWsAux rest (c :: cur)

/-- Python str.split() with no arguments. -/
def pySplit (s : String) : List String :=
  splitWsAux s.data []

/-- Replace every non-overlapping occurrence of the nonempty pattern
p :: ps, left to right (Python str.replace with a nonempty pattern).
Structural recursion on a fuel count: every step consumes at least one
character, so fuel equal to the length of the text is always enough and
the out-of-fuel fallback is never reached. -/
def replaceAux (p : Char) (ps rep : List Char) : Nat → List Char → List Char
  | 0, s => s
  | _ + 1, [] => []
  | fuel + 1, c :: rest =>
    if (p :: ps).isPrefixOf (c :: rest) then
      rep ++ replaceAux p ps rep fuel (rest.drop ps.length)
    else
      c :: replaceAux p ps rep fuel rest

/-- Python str.replace(old, new).  Every call site passes a nonempty old
(the patterns are of shape a dollar sign, an opening brace, a name, a
closing brace); the empty-pattern case returns s unchanged and is never
exercised. -/
def pyReplace (s old new : String) : String :=
  match old.data with
  | [] => s
  | p :: ps => String.mk (replaceAux p ps new.data s.data.length s.data)

/-- Splitting on a nonempty separator c :: cs, left to right, non-overlapping
(Python str.split(sep)).  cur holds the piece being built, reversed;
fuel as in replaceAux (the length of the text always suffices). -/
def splitOnGo (c : Char) (cs : List Char) : Nat → List Char → List Char → List String
  | 0, _, cur => [String.mk cur.reverse]
  | _ + 1, [], cur => [String.mk cur.reverse]
  | fuel + 1, x :: rest, cur =>
    if (c :: cs).isPrefixOf (x :: rest) then
      String.mk cur.reverse :: splitOnGo c cs fuel (rest.drop cs.length) []
    else
      splitOnGo c cs fuel rest (x :: cur)

/-- Python str.split(sep) for a nonempty separator.  The empty-separator
case raises in Python and is never exercised here. -/
def pySplitOn (s sep : String) : List String :=
  match sep.data with
  | [] => [s]
  | c :: cs => splitOnGo c cs s.data.length s.data []

/-- Python sep.join for sep a single space: " ".join(parts). -/
def joinSpace : List String → String
  | [] => ""
  | [s] => s
  | s :: rest => s ++ " " ++ joinSpace rest

/-- Python (ch in s) for a single character. -/
def pyContainsChar (s : String) (ch : Char) : Bool :=
  s.data.any (fun c => c == ch)

/-! ## Values and dictionaries -/

/-- A Python value as it occurs in the parse-time scope and the run-time
context: int, float, bool, str.  Floating point is not modelled exactly:
a float value keeps the literal text it was parsed from (no claim in this
development concerns float values). -/
inductive Value where
  | int (n : Int)
  | float (lit : String)
  | bool (b : Bool)
  | str (s : String)
  deriving DecidableEq, Repr, Inhabited

/-- Python str(value): decimal for ints, capitalized True and False for
bools, the string itself for strings.  For the (never claim-relevant)
float case the stored literal stands in for the Python repr. -/
def Value.toPyStr : Value → String
  | .int n => toString n
  | .float lit => lit
  | .bool true => "True"
  | .bool false => "False"
  | .str s => s

/-- A value stored in a Command Record options dict: either the following
token (a string) or the Python boolean True for a bare flag. -/
inductive OptVal where
  | str (s : String)
  | flag
  deriving DecidableEq, Repr, Inhabited

/-- A key of the run-time context.  SET stores string keys; QUERY with a
bare --var flag stores under the Python key True (str() of which is
"True", used when building substitution patterns). -/
inductive RKey where
  | s (v : String)
  | pyTrue
  deriving DecidableEq, Repr, Inhabited

/-- Python str() of a run-time context key, used in the f-string that
builds the substitution pattern. -/
def RKey.toPyStr : RKey → String
  | .s v => v
  | .pyTrue => "True"

/-- Python dict assignment d[k] = v: update in place when the key exists
(insertion order kept), else append. -/
def dictSet {κ α : Type} [DecidableEq κ] (d : List (κ × α)) (k : κ) (v : α) :
    List (κ × α) :=
  if d.any (fun p => p.1 = k) then
    d.map (fun p => if p.1 = k then (k, v) else p)
  else
    d ++ [(k, v)]

/-- Python d.get(k) / k in d. -/
def dictGet {κ α : Type} [DecidableEq κ] (d : List (κ × α)) (k : κ) : Option α :=
  (d.find? (fun p => p.1 = k)).map (fun p => p.2)

/-! ## Command Records and Result Records -/

/-- BatchCommand: a single parsed command (line number, command word,
positional args, options dict, snapshot of the parse-time scope; the
field vars embeds the Python dataclass field named variables, a name Lean
reserves). -/
structure BatchCommand where
  line_number : Nat
  command : String
  args : List String
  options : List (String × OptVal)
  vars : List (String × Value)
  deriving DecidableEq, Repr, Inhabited

/-- BatchResult: result of executing one command.  The wall-clock duration
field of the Python dataclass is real time and is not modelled. -/
structure BatchResult where
  command : BatchCommand
  success : Bool
  output : Option Value
  error : Option String
  deriving DecidableEq, Repr, Inhabited

/-- BatchCommand.expand_variables: textual substitution of every
occurrence of a dollar-brace-name-brace pattern, iterating the context in
insertion order, first over the command word, then over each positional
arg; options and variables are passed through to the new record
unchanged. -/
def BatchCommand.expand_variables (cmd : BatchCommand)
    (context : List (RKey × Value)) : BatchCommand :=
  let expanded_command := context.foldl
    (fun s p => pyReplace s ("$\x7b" ++ p.1.toPyStr ++ "\x7d") p.2.toPyStr)
    cmd.command
  let expanded_args := cmd.args.map (fun arg =>
    context.foldl
      (fun s p => pyReplace s ("$\x7b" ++ p.1.toPyStr ++ "\x7d") p.2.toPyStr)
      arg)
  ⟨cmd.line_number, expanded_command, expanded_args, cmd.options, cmd.vars⟩

/-! ## Parser: regular expression patterns

The three patterns the parser consults are embedded as functions on the
already stripped line (parse_file strips each line before matching, so the
input contains no leading or trailing whitespace and no newline; the
embeddings follow the regex semantics, backtracking included, on such
inputs). -/

/-- Word characters of regex \w (ASCII model). -/
def isWordChar (c : Char) : Bool :=
  c.isAlphanum || c == '_'

/-- Strip a keyword case-insensitively from the front (IGNORECASE match of
a literal such as SET, FOR, IN). -/
def dropKeyword : List Char → List Char → Option (List Char)
  | [], cs => some cs
  | _ :: _, [] => none
  | k :: ks, c :: cs => if c.toLower == k.toLower then dropKeyword ks cs else none

/-- PATTERNS comment: a line whose first non-whitespace character is a
hash sign. -/
def matchComment (line : String) : Bool :=
  match line.data.dropWhile pyIsSpace with
  | '#' :: _ => true
  | [] => false
  | _ :: _ => false

/-- PATTERNS variable: the assignment regex.  On success returns the name
group and the raw value group (everything after the equals sign from the
first non-whitespace character to the end of the line; on a stripped line
the value group is nonempty and has no leading whitespace). -/
def matchVariable (line : String) : Option (String × String) :=
  let cs := line.data.dropWhile pyIsSpace
  match dropKeyword ['S', 'E', 'T'] cs with
  | none => none
  | some rest =>
    if (rest.takeWhile pyIsSpace).isEmpty then none
    else
      let rest := rest.dropWhile pyIsSpace
      let name := rest.takeWhile isWordChar
      if name.isEmpty then none
      else
        let rest := (rest.dropWhile isWordChar).dropWhile pyIsSpace
        match rest with
        | '=' :: rest =>
          let v := rest.dropWhile pyIsSpace
          if v.isEmpty then none
          else some (String.mk name, String.mk v)
        | _ => none

/-- PATTERNS for_loop: the loop header regex.  The greedy group before the
colon grabs everything up to the final character of the line, which must
be a colon; when the part after the IN keyword is just whitespace and a
colon, backtracking lets the whitespace run supply the mandatory group
character (the group then strips to the empty string at the call site).
Returns the loop variable name and the raw list-expression group. -/
def matchFor (line : String) : Option (String × String) :=
  let cs := line.data.dropWhile pyIsSpace
  match dropKeyword ['F', 'O', 'R'] cs with
  | none => none
  | some rest =>
    if (rest.takeWhile pyIsSpace).isEmpty then none
    else
      let rest := rest.dropWhile pyIsSpace
      let name := rest.takeWhile isWordChar
      if name.isEmpty then none
      else
        let rest := rest.dropWhile isWordChar
        if (rest.takeWhile pyIsSpace).isEmpty then none
        else
          match dropKeyword ['I', 'N'] (rest.dropWhile pyIsSpace) with
          | none => none
          | some tail =>
            let ws := tail.takeWhile pyIsSpace
            if ws.isEmpty then none
            else
              let r := tail.dropWhile pyIsSpace
              if r.getLast? = some ':' ∧ 2 ≤ r.length then
                some (String.mk name, String.mk r.dropLast)
              else if r = [':'] ∧ 2 ≤ ws.length then
                some (String.mk name, String.mk [ws.getLast!])
              else none

/-! ## Parser: literal evaluator and list expressions -/

/-- Acceptance test of Python float(expr): optional surrounding
whitespace, optional sign, then either a decimal mantissa with optional
exponent, or inf, infinity, nan (case-insensitive).  Underscores between
digits, accepted by Python, are not modelled (no claim touches them). -/
def pyFloatAccepts (s : String) : Bool :=
  let cs := (s.data.dropWhile pyIsSpace).reverse.dropWhile pyIsSpace |>.reverse
  let cs := match cs with
    | '+' :: r => r
    | '-' :: r => r
    | r => r
  let low := cs.map Char.toLower
  if low = ['i', 'n', 'f'] || low = "infinity".data || low = ['n', 'a', 'n'] then
    true
  else
    let ds := cs.takeWhile Char.isDigit
    let r1 := cs.dropWhile Char.isDigit
    let mantissaAndRest : Bool × List Char :=
      match r1 with
      | '.' :: r =>
        (!ds.isEmpty || !(r.takeWhile Char.isDigit).isEmpty,
         r.dropWhile Char.isDigit)
      | r => (!ds.isEmpty, r)
    if !mantissaAndRest.1 then false
    else
      match mantissaAndRest.2 with
      | [] => true
      | 'e' :: r | 'E' :: r =>
        let r := match r with
          | '+' :: t => t
          | '-' :: t => t
          | t => t
        !r.isEmpty && r.all Char.isDigit
      | _ => false

/-- Python str.strip(braces): remove leading and trailing brace
characters (any mix of opening and closing). -/
def stripBraces (s : String) : String :=
  let isBrace : Char → Bool := fun c => c == '\x7b' || c == '\x7d'
  String.mk (((s.data.dropWhile isBrace).reverse.dropWhile isBrace).reverse)

/-- BatchParser._evaluate_value: quoted string, all-digit int, float,
boolean literal, variable reference (falling back to the raw token when
the variable is absent), else the raw string. -/
def evaluate_value (expr : String) (context : List (String × Value)) : Value :=
  if (strStartsWith expr "\"" && strEndsWith expr "\"")
      || (strStartsWith expr (String.mk [Char.ofNat 39])
          && strEndsWith expr (String.mk [Char.ofNat 39])) then
    .str (String.mk (expr.data.drop 1).dropLast)
  else if pyIsDigit expr then
    .int (Int.ofNat (pyToNat expr.data))
  else if pyFloatAccepts expr then
    .float expr
  else if pyLower expr == "true" || pyLower expr == "false" then
    .bool (pyLower expr == "true")
  else if strStartsWith expr "$" then
    let var_name := stripBraces (strDrop expr 1)
    match dictGet context var_name with
    | some v => v
    | none => .str expr
  else
    .str expr

/-- BatchParser._parse_list: a range of the shape A..B over two all-digit
endpoints becomes the inclusive integer range; otherwise a comma-separated
list evaluates its stripped items; otherwise a singleton of the evaluated
expression. -/
def parse_list (expr : String) (context : List (String × Value)) : List Value :=
  let dotParts := pySplitOn expr ".."
  let rangeResult : Option (List Value) :=
    if 1 < dotParts.length then
      match dotParts with
      | [a, b] =>
        if pyIsDigit a && pyIsDigit b then
          some ((List.range' (pyToNat a.data)
            (pyToNat b.data + 1 - pyToNat a.data)).map
              (fun n => Value.int (Int.ofNat n)))
        else none
      | _ => none
    else none
  match rangeResult with
  | some r => r
  | none =>
    if pyContainsChar expr ',' then
      (pySplitOn expr ",").map (fun item => evaluate_value (pyStrip item) context)
    else
      [evaluate_value expr context]

/-! ## Parser: command lines and the main loop -/

/-- The option-scanning while loop of BatchParser._parse_command_line over
the tokens after the command word: a token starting with two dashes is an
option whose name drops exactly two characters, taking the next token as
its value when one exists and does not itself start with a dash; a token
starting with one dash is a bare flag whose name drops one character; any
other token is a positional argument. -/
def scanParts : List String → List String → List (String × OptVal) →
    List String × List (String × OptVal)
  | [], args, options => (args, options)
  | [p], args, options =>
    if strStartsWith p "--" then
      (args, dictSet options (strDrop p 2) OptVal.flag)
    else if strStartsWith p "-" then
      (args, dictSet options (strDrop p 1) OptVal.flag)
    else
      (args ++ [p], options)
  | p :: q :: rest, args, options =>
    if strStartsWith p "--" then
      if !strStartsWith q "-" then
        scanParts rest args (dictSet options (strDrop p 2) (OptVal.str q))
      else
        scanParts (q :: rest) args (dictSet options (strDrop p 2) OptVal.flag)
    else if strStartsWith p "-" then
      scanParts (q :: rest) args (dictSet options (strDrop p 1) OptVal.flag)
    else
      scanParts (q :: rest) (args ++ [p]) options

/-- The variable-expansion pass of BatchParser._parse_command_line:
replace every dollar-brace-name-brace pattern by the stringified value,
iterating the parse-time scope in insertion order. -/
def expandLine (line : String) (context : List (String × Value)) : String :=
  context.foldl
    (fun s p => pyReplace s ("$\x7b" ++ p.1 ++ "\x7d") p.2.toPyStr)
    line

/-- BatchParser._parse_command_line: reject empty and comment lines,
expand variables, split on whitespace, and scan options; the record keeps
a copy of the scope it was parsed under. -/
def parse_command_line (line : String) (line_number : Nat)
    (context : List (String × Value)) : Option BatchCommand :=
  if line.isEmpty || strStartsWith line "#" then none
  else
    match pySplit (expandLine line context) with
    | [] => none
    | command :: parts =>
      let scanned := scanParts parts [] []
      some ⟨line_number, command, scanned.1, scanned.2, context⟩

/-- The while loop of BatchParser.parse_file.  The list argument holds the
raw lines still to process (as readlines yields them, newline kept), i is
the 0-based index of the first of them, context the parse-time scope; the
loop advances past at least one line per step, so fuel equal to the number
of lines is always enough and the out-of-fuel fallback is never reached.
A FOR header captures the following lines whose indent level stays at or
above the level of the first such line, evaluates its list expression
once, and re-parses the captured body once per item under a derived
scope; the loop-unrolled records keep the header line number. -/
def parseGo : Nat → List String → Nat → List (String × Value) → List BatchCommand
  | 0, _, _, _ => []
  | _ + 1, [], _, _ => []
  | fuel + 1, l :: rest, i, context =>
    let line := pyStrip l
    let line_number := i + 1
    if line.isEmpty || matchComment line then
      parseGo fuel rest (i + 1) context
    else
      match matchVariable line with
      | some nv =>
        parseGo fuel rest (i + 1)
          (dictSet context nv.1 (evaluate_value (pyStrip nv.2) context))
      | none =>
        match matchFor line with
        | some header =>
          let items_expr := pyStrip header.2
          let indent_level := match rest with
            | [] => 0
            | l2 :: _ => get_indent_level l2
          let body := rest.takeWhile (fun l2 => indent_level ≤ get_indent_level l2)
          let rest2 := rest.drop body.length
          let items := parse_list items_expr context
          let loopCmds := items.flatMap (fun item =>
            let loop_context := dictSet context header.1 item
            body.filterMap (fun cmd_line =>
              parse_command_line (pyStrip cmd_line) line_number loop_context))
          loopCmds ++ parseGo fuel rest2 (i + 1 + body.length) context
        | none =>
          match parse_command_line line line_number context with
          | some c => c :: parseGo fuel rest (i + 1) context
          | none => parseGo fuel rest (i + 1) context

/-- BatchParser.parse_file on the list of raw lines of the script (the
readlines output: each line keeps its trailing newline except possibly
the last). -/
def parse_file (lines : List String) : List BatchCommand :=
  parseGo lines.length lines 0 []

/-! ## Executor

The external collaborators (query engine and exporter) are a parameter
structure; any of their calls may fail, which models a raised exception.
In every raising path of the Python handlers the raise happens before the
run-time context is mutated, so a handler is a function from the context
to Except, returning the updated context only on success. -/

/-- The outcome of query.execute(): the row count the handler returns and
the serialized result dict stored by the var option (opaque here). -/
structure QueryOutcome where
  count : Int
  dict : Value
  deriving Repr, Inhabited

/-- External collaborators: the query engine (select, where-filters in
options order, optional limit, execute), the loaded_tables map, and the
exporter. -/
structure Engine where
  runQuery : String → List (String × OptVal) → Option Int → Except String QueryOutcome
  loadedTables : String → List Value
  exportRows : List Value → String → String → Except String Unit

/-- The run-time context: a dict owned by the executor. -/
abbrev RCtx := List (RKey × Value)

/-- Python int() on an option value: int(True) is 1; on a string, optional
whitespace and sign around digits (Python also accepts underscores
between digits, not modelled; the error text omits the quoted repr). -/
def pyIntOfOpt : OptVal → Except String Int
  | .flag => .ok 1
  | .str s =>
    let cs := (s.data.dropWhile pyIsSpace).reverse.dropWhile pyIsSpace |>.reverse
    let signAndDigits : Bool × List Char :=
      match cs with
      | '+' :: r => (false, r)
      | '-' :: r => (true, r)
      | r => (false, r)
    if !signAndDigits.2.isEmpty && signAndDigits.2.all Char.isDigit then
      if signAndDigits.1 then .ok (-(Int.ofNat (pyToNat signAndDigits.2)))
      else .ok (Int.ofNat (pyToNat signAndDigits.2))
    else
      .error ("invalid literal for int() with base 10: " ++ s)

/-- The key under which the var option stores the query result: the
option value itself (the Python boolean True when the flag had no
value). -/
def optValKey : OptVal → RKey
  | .str s => .s s
  | .flag => .pyTrue

/-- BatchExecutor._execute_query: require a table argument, turn every
option whose key starts with where_ into an equality filter (key minus
the six-character prefix), apply an optional limit through int(), run the
query, store the serialized result under the var option when present,
and return the row count. -/
def execute_query (eng : Engine) (context : RCtx) (command : BatchCommand) :
    Except String (Value × RCtx) :=
  match command.args with
  | [] => .error "Query requires table name"
  | table :: _ =>
    let filters := (command.options.filter
        (fun p => strStartsWith p.1 "where_")).map
      (fun p => (strDrop p.1 6, p.2))
    (match dictGet command.options "limit" with
      | some v => (pyIntOfOpt v).map some
      | none => Except.ok none).bind fun lim =>
    (eng.runQuery table filters lim).bind fun result =>
    let context := match dictGet command.options "var" with
      | some v => dictSet context (optValKey v) result.dict
      | none => context
    .ok (.int result.count, context)

/-- BatchExecutor._execute_export: require table, format and filename
arguments, fetch the loaded rows of the table, hand them to the exporter,
and return a confirmation string. -/
def execute_export (eng : Engine) (context : RCtx) (command : BatchCommand) :
    Except String (Value × RCtx) :=
  match command.args with
  | table :: format :: filename :: _ =>
    let data := eng.loadedTables table
    (eng.exportRows data format filename).map fun _ =>
      (.str ("Exported " ++ toString data.length ++ " records to " ++ filename),
       context)
  | _ => .error "Export requires: table format filename"

/-- The value coercion of BatchExecutor._execute_set: all-digit string to
int, case-insensitive true or false to bool, anything else kept as the
string. -/
def setCoerce (value : String) : Value :=
  if pyIsDigit value then .int (Int.ofNat (pyToNat value.data))
  else if pyLower value == "true" || pyLower value == "false" then
    .bool (pyLower value == "true")
  else .str value

/-- BatchExecutor._execute_set: require a name and at least one value
token, join the value tokens with single spaces, coerce, store into the
run-time context, and return a confirmation string. -/
def execute_set (context : RCtx) (command : BatchCommand) :
    Except String (Value × RCtx) :=
  match command.args with
  | var_name :: v :: rest =>
    let value := setCoerce (joinSpace (v :: rest))
    .ok (.str ("Set " ++ var_name ++ " = " ++ value.toPyStr),
         dictSet context (RKey.s var_name) value)
  | _ => .error "SET requires: variable value"

/-- BatchExecutor._execute_print: join the args with single spaces,
substitute run-time context variables, and return the printed message
(console output is observational and not modelled). -/
def execute_print (context : RCtx) (command : BatchCommand) :
    Except String (Value × RCtx) :=
  let message := joinSpace command.args
  let message := context.foldl
    (fun m p => pyReplace m ("$\x7b" ++ p.1.toPyStr ++ "\x7d") p.2.toPyStr)
    message
  .ok (.str message, context)

/-- The try-block body of BatchExecutor._execute_command: expand the
command against the run-time context, then dispatch on the upper-cased
command word; an unknown word raises. -/
def runCommand (eng : Engine) (context : RCtx) (command : BatchCommand) :
    Except String (Value × RCtx) :=
  let expanded := command.expand_variables context
  if pyUpper expanded.command == "QUERY" then execute_query eng context expanded
  else if pyUpper expanded.command == "EXPORT" then execute_export eng context expanded
  else if pyUpper expanded.command == "SET" then execute_set context expanded
  else if pyUpper expanded.command == "PRINT" then execute_print context expanded
  else .error ("Unknown command: " ++ expanded.command)

/-- BatchExecutor._execute_command: the per-command exception boundary.
A raise inside the try block becomes a failed BatchResult carrying the
exception message; the result records the original, unexpanded command.
In every raising path the context is still the input context (each
handler mutates it only after its last fallible step). -/
def execute_command (eng : Engine) (context : RCtx) (command : BatchCommand) :
    RCtx × BatchResult :=
  match runCommand eng context command with
  | .ok p => (p.2, ⟨command, true, some p.1, none⟩)
  | .error e => (context, ⟨command, false, none, some e⟩)

/-- The command loop of BatchExecutor.execute_batch: dry_run skips a
command entirely (console notice only); otherwise the command is executed,
its result appended, and a failure stops the loop when stop_on_error is
set.  acc is the results list built so far. -/
def execBatchGo (eng : Engine) : List BatchCommand → RCtx → List BatchResult →
    Bool → Bool → RCtx × List BatchResult
  | [], context, acc, _, _ => (context, acc)
  | c :: rest, context, acc, dry_run, stop_on_error =>
    if dry_run then execBatchGo eng rest context acc dry_run stop_on_error
    else
      let p := execute_command eng context c
      if !p.2.success && stop_on_error then (p.1, acc ++ [p.2])
      else execBatchGo eng rest p.1 (acc ++ [p.2]) dry_run stop_on_error

/-- The executor state: the shared run-time context dict created empty in
the constructor, and the results list of the most recent run. -/
structure BatchExecutor where
  context : RCtx
  results : List BatchResult
  deriving DecidableEq, Repr, Inhabited

/-- BatchExecutor.__init__: empty context, empty results. -/
def BatchExecutor.init : BatchExecutor :=
  ⟨[], []⟩

/-- BatchExecutor.execute_batch: reset the results list, run the command
loop against the executor's current context, and return the produced
results (also stored on the executor). -/
def execute_batch (eng : Engine) (ex : BatchExecutor)
    (commands : List BatchCommand) (dry_run stop_on_error : Bool) :
    BatchExecutor × List BatchResult :=
  let p := execBatchGo eng commands ex.context [] dry_run stop_on_error
  (⟨p.1, p.2⟩, p.2)

/-- Straight-line execution of a command list with no early stop: the
reference run used to phrase which command is the first to fail. -/
def runSeq (eng : Engine) : List BatchCommand → RCtx → RCtx × List BatchResult
  | [], context => (context, [])
  | c :: rest, context =>
    let p := execute_command eng context c
    let q := runSeq eng rest p.1
    (q.1, p.2 :: q.2)

/-! ## Reporter -/

/-- pathlib.PurePath.suffix: the extension of the final path component,
from the last dot when that dot is neither the first nor the last
character of the component name. -/
def path_suffix (p : String) : String :=
  let name := (pySplitOn p "/").getLastD ""
  let cs := name.data
  match (cs.reverse.findIdx? (fun c => c == '.')) with
  | none => ""
  | some ridx =>
    let i := cs.length - 1 - ridx
    if 0 < i ∧ i < cs.length - 1 then String.mk (cs.drop i) else ""

/-- The serialization choices of BatchExecutor.export_results. -/
inductive WriteAction where
  | json
  | yaml
  deriving DecidableEq, Repr

/-- The write decision of BatchExecutor.export_results: a json dump when
the destination suffix is .json, a yaml dump when it is .yaml, and no
write otherwise.  The report payload (timestamp, summary, per-result
dicts, final context) is built identically before the branch and is not
modelled; the executor argument records that the decision ignores the
result state. -/
def export_results_write (_ex : BatchExecutor) (filepath : String) :
    Option WriteAction :=
  if path_suffix filepath == ".json" then some .json
  else if path_suffix filepath == ".yaml" then some .yaml
  else none

/-- An engine whose collaborators always succeed, used for concrete runs
(SET, PRINT and unknown-command dispatch never consult the engine). -/
def trivialEngine : Engine :=
  ⟨fun _ _ _ => .ok ⟨0, .str ""⟩, fun _ => [], fun _ _ _ => .ok ()⟩

/-! ## Helper lemmas -/

/-- With dry_run set, the command loop touches nothing: it returns the
incoming context and accumulator unchanged. -/
theorem execBatchGo_dry (eng : Engine) (cmds : List BatchCommand)
    (context : RCtx) (acc : List BatchResult) (stop : Bool) :
    execBatchGo eng cmds context acc true stop = (context, acc) := by
  induction cmds with
  | nil => rfl
  | cons c rest ih => simp [execBatchGo, ih]

/-! ## Claims -/

/-- C10 (confirmed): execute-time re-expansion substitutes only in the
command name and the positional args; the options mapping of the expanded
command is the very mapping of the parsed record, for every record and
every run-time context, so option values are never re-expanded against
the run-time context. -/
theorem c10_options_not_reexpanded (cmd : BatchCommand) (context : RCtx) :
    (cmd.expand_variables context).options = cmd.options := rfl

/-- C8 (confirmed): a dry run returns an empty result sequence and leaves
the run-time context untouched, for every command list; the run is also
independent of the engine collaborator, which expresses that no handler
is invoked. -/
theorem c8_dry_run (eng eng2 : Engine) (ex : BatchExecutor)
    (cmds : List BatchCommand) (stop : Bool) :
    execute_batch eng ex cmds true stop = (⟨ex.context, []⟩, []) ∧
    execute_batch eng ex cmds true stop = execute_batch eng2 ex cmds true stop := by
  constructor
  · simp [execute_batch, execBatchGo_dry]
  · simp [execute_batch, execBatchGo_dry]

/-- First call of the C1 counterexample: SET x 5. -/
def c1_cmd_set_x : BatchCommand := ⟨1, "SET", ["x", "5"], [], []⟩

/-- Second call of the C1 counterexample: SET y to the expansion of x. -/
def c1_cmd_use_x : BatchCommand := ⟨1, "SET", ["y", "$\x7bx\x7d"], [], []⟩

/-- C1 counterexample: on one executor, a SET executed by a first
execute_batch call is visible to the command of a second call: the second
call stores the integer 5 for y (the expansion of x succeeded), while the
same single-command batch on a fresh executor stores the unexpanded
string.  The run-time context is therefore not empty at the start of the
second call. -/
theorem c1_counterexample :
    dictGet ((execute_batch trivialEngine
        (execute_batch trivialEngine BatchExecutor.init [c1_cmd_set_x]
          false true).1
        [c1_cmd_use_x] false true).1.context) (RKey.s "y") =
      some (Value.int 5) ∧
    dictGet ((execute_batch trivialEngine BatchExecutor.init [c1_cmd_use_x]
        false true).1.context) (RKey.s "y") =
      some (Value.str "$\x7bx\x7d") ∧
    Value.int 5 ≠ Value.str "$\x7bx\x7d" := by
  refine ⟨by decide, by decide, by decide⟩

/-- C1 (corrected): the run-time context is empty only at executor
construction; execute_batch does not reset it but threads the executor's
current context into the run (only the results list starts empty each
call), so variables stored by one call stay visible to later calls on the
same executor. -/
theorem c1_amended (eng : Engine) (ex : BatchExecutor)
    (cmds : List BatchCommand) (dry stop : Bool) :
    BatchExecutor.init.context = [] ∧
    (execute_batch eng ex cmds dry stop).1.context =
      (execBatchGo eng cmds ex.context [] dry stop).1 ∧
    (execute_batch eng ex cmds dry stop).2 =
      (execBatchGo eng cmds ex.context [] dry stop).2 :=
  ⟨rfl, rfl, rfl⟩

/-- C2 counterexample: a destination with extension .yml produces no
write at all, where the claim promises a YAML write. -/
theorem c2_counterexample :
    path_suffix "report.yml" = ".yml" ∧
    export_results_write BatchExecutor.init "report.yml" = none := by
  refine ⟨by decide, by decide⟩

/-- C2 (corrected): the write decision depends only on the destination
extension, with JSON for .json and YAML for .yaml alone; every other
extension, the .yml spelling included, performs no write. -/
theorem c2_amended (ex : BatchExecutor) (p : String) :
    (path_suffix p = ".json" →
      export_results_write ex p = some WriteAction.json) ∧
    (path_suffix p = ".yaml" →
      export_results_write ex p = some WriteAction.yaml) ∧
    (path_suffix p ≠ ".json" → path_suffix p ≠ ".yaml" →
      export_results_write ex p = none) := by
  refine ⟨fun h => ?_, fun h => ?_, fun h1 h2 => ?_⟩
  · simp [export_results_write, h]
  · simp [export_results_write, h]
  · simp [export_results_write, h1, h2]

/-- C2 witness: the amended claim at the concrete path run.json. -/
theorem c2_witness :
    path_suffix "run.json" = ".json" ∧
    export_results_write BatchExecutor.init "run.json" = some WriteAction.json :=
  ⟨by decide, (c2_amended BatchExecutor.init "run.json").1 (by decide)⟩

/-- A loop whose two body lines at indent four are separated by a blank
line. -/
def c3_script : List String :=
  ["FOR x IN a,b:\n", "    SET y 1\n", "\n", "    SET z 2\n"]

/-- The same script with the blank line removed. -/
def c3_script_noblank : List String :=
  ["FOR x IN a,b:\n", "    SET y 1\n", "    SET z 2\n"]

/-- C3 (code_bug): a blank line is not skipped during loop-body capture;
its indent level 1 (the newline character) falls below the body threshold
4 and terminates the capture, so the remainder of the body is parsed once,
outside the loop, at its own line number and without the loop variable.
The claim (and the example batch scripts shipped in the same source file,
which put blank lines inside FOR bodies) expect the two scripts to parse
identically. -/
theorem c3_blank_line_breaks_capture :
    parse_file c3_script =
      [⟨1, "SET", ["y", "1"], [], [("x", Value.str "a")]⟩,
       ⟨1, "SET", ["y", "1"], [], [("x", Value.str "b")]⟩,
       ⟨4, "SET", ["z", "2"], [], []⟩] ∧
    parse_file c3_script_noblank =
      [⟨1, "SET", ["y", "1"], [], [("x", Value.str "a")]⟩,
       ⟨1, "SET", ["z", "2"], [], [("x", Value.str "a")]⟩,
       ⟨1, "SET", ["y", "1"], [], [("x", Value.str "b")]⟩,
       ⟨1, "SET", ["z", "2"], [], [("x", Value.str "b")]⟩] ∧
    parse_file c3_script ≠ parse_file c3_script_noblank := by
  refine ⟨by decide, by decide, by decide⟩

/-- The C4 script: a loop over a, b, c whose body assigns y with an
equals sign. -/
def c4_script : List String :=
  ["FOR x IN a,b,c:\n", "    SET y = $\x7bx\x7d\n"]

/-- C4 counterexample: the script parses into three SET records, but the
equals sign of the body line is a positional argument (loop-body lines
bypass the assignment pattern), so the SET handler joins it into the
value: the final run-time context holds the string "= c" for y, not
"c". -/
theorem c4_counterexample :
    (parse_file c4_script).map (fun c => c.command) = ["SET", "SET", "SET"] ∧
    dictGet ((execute_batch trivialEngine BatchExecutor.init
        (parse_file c4_script) false true).1.context) (RKey.s "y") =
      some (Value.str "= c") ∧
    (some (Value.str "= c") : Option Value) ≠ some (Value.str "c") := by
  refine ⟨by decide, by decide, by decide⟩

/-- C4 (corrected): the script parses into exactly 3 Command Records with
command SET, and executing them with dry_run false leaves the final
run-time context with y bound to the string "= c" (the equals token is
joined into the stored value). -/
theorem c4_amended :
    (parse_file c4_script).length = 3 ∧
    (parse_file c4_script).map (fun c => c.command) = ["SET", "SET", "SET"] ∧
    dictGet ((execute_batch trivialEngine BatchExecutor.init
        (parse_file c4_script) false true).1.context) (RKey.s "y") =
      some (Value.str "= c") := by
  refine ⟨by decide, by decide, by decide⟩

/-- C7 (confirmed): the per-command boundary converts every handler
error, the missing-argument errors and the unknown-command error
included, into a failed Result Record carrying the exception message and
leaves the context untouched, while a handler success yields a successful
record; execute_command returns a record in every case, so no handler
exception escapes the executor. -/
theorem c7_exception_boundary (eng : Engine) (context : RCtx)
    (command : BatchCommand) :
    (∀ m, runCommand eng context command = .error m →
      execute_command eng context command =
        (context, ⟨command, false, none, some m⟩)) ∧
    (∀ p, runCommand eng context command = .ok p →
      execute_command eng context command =
        (p.2, ⟨command, true, some p.1, none⟩)) ∧
    (pyUpper (command.expand_variables context).command ∉
        (["QUERY", "EXPORT", "SET", "PRINT"] : List String) →
      runCommand eng context command =
        .error ("Unknown command: " ++ (command.expand_variables context).command)) ∧
    (pyUpper (command.expand_variables context).command = "QUERY" →
      (command.expand_variables context).args = [] →
      runCommand eng context command = .error "Query requires table name") ∧
    (pyUpper (command.expand_variables context).command = "SET" →
      (command.expand_variables context).args.length < 2 →
      runCommand eng context command = .error "SET requires: variable value") ∧
    (pyUpper (command.expand_variables context).command = "EXPORT" →
      (command.expand_variables context).args.length < 3 →
      runCommand eng context command =
        .error "Export requires: table format filename") := by
  refine ⟨fun m hm => ?_, fun p hp => ?_, fun h => ?_, fun h ha => ?_,
    fun h ha => ?_, fun h ha => ?_⟩
  · simp [execute_command, hm]
  · simp [execute_command, hp]
  · simp only [List.mem_cons, List.not_mem_nil, or_false, not_or] at h
    obtain ⟨h1, h2, h3, h4⟩ := h
    simp [runCommand, h1, h2, h3, h4]
  · simp only [runCommand, h, beq_self_eq_true, if_true, String.reduceBEq,
      reduceIte]
    simp [execute_query, ha]
  · have hq : ("SET" == "QUERY") = false := by decide
    have he : ("SET" == "EXPORT") = false := by decide
    simp only [runCommand, h, hq, he, beq_self_eq_true, if_true, if_false,
      Bool.false_eq_true, reduceIte]
    match hargs : (command.expand_variables context).args with
    | [] => simp [execute_set, hargs]
    | [a] => simp [execute_set, hargs]
    | a :: b :: r => rw [hargs] at ha; simp at ha; omega
  · have hq : ("EXPORT" == "QUERY") = false := by decide
    simp only [runCommand, h, hq, beq_self_eq_true, if_true, if_false,
      Bool.false_eq_true, reduceIte]
    match hargs : (command.expand_variables context).args with
    | [] => simp [execute_export, hargs]
    | [a] => simp [execute_export, hargs]
    | [a, b] => simp [execute_export, hargs]
    | a :: b :: c :: r => rw [hargs] at ha; simp at ha; omega

/-- The unknown command of the C7 witness. -/
def c7_cmd : BatchCommand := ⟨1, "BOGUS", [], [], []⟩

/-- C7 witness: the boundary at the concrete unknown command BOGUS. -/
theorem c7_witness :
    runCommand trivialEngine [] c7_cmd = .error "Unknown command: BOGUS" ∧
    execute_command trivialEngine [] c7_cmd =
      ([], ⟨c7_cmd, false, none, some "Unknown command: BOGUS"⟩) :=
  ⟨rfl, (c7_exception_boundary trivialEngine [] c7_cmd).1
    "Unknown command: BOGUS" rfl⟩

/-- C9 (confirmed): the SET handler joins the args after the first with
single spaces and stores the coercion of the joined string: all-digit to
the integer it denotes, case-insensitive true or false to the boolean,
anything else to the string itself; the confirmation output stringifies
the coerced value. -/
theorem c9_set_coercion (context : RCtx) (command : BatchCommand)
    (name v : String) (rest : List String)
    (h : command.args = name :: v :: rest) :
    execute_set context command =
      .ok (.str ("Set " ++ name ++ " = " ++
          (setCoerce (joinSpace (v :: rest))).toPyStr),
        dictSet context (RKey.s name) (setCoerce (joinSpace (v :: rest)))) ∧
    (pyIsDigit (joinSpace (v :: rest)) = true →
      setCoerce (joinSpace (v :: rest)) =
        .int (Int.ofNat (pyToNat (joinSpace (v :: rest)).data))) ∧
    (pyIsDigit (joinSpace (v :: rest)) = false →
      pyLower (joinSpace (v :: rest)) = "true" →
      setCoerce (joinSpace (v :: rest)) = .bool true) ∧
    (pyIsDigit (joinSpace (v :: rest)) = false →
      pyLower (joinSpace (v :: rest)) = "false" →
      setCoerce (joinSpace (v :: rest)) = .bool false) ∧
    (pyIsDigit (joinSpace (v :: rest)) = false →
      pyLower (joinSpace (v :: rest)) ≠ "true" →
      pyLower (joinSpace (v :: rest)) ≠ "false" →
      setCoerce (joinSpace (v :: rest)) = .str (joinSpace (v :: rest))) := by
  refine ⟨?_, fun hd => ?_, fun hd ht => ?_, fun hd hf => ?_,
    fun hd ht hf => ?_⟩
  · simp [execute_set, h]
  · simp [setCoerce, hd]
  · simp [setCoerce, hd, ht]
  · simp [setCoerce, hd, hf]
  · have h1 : (pyLower (joinSpace (v :: rest)) == "true") = false := by
      simp [ht]
    have h2 : (pyLower (joinSpace (v :: rest)) == "false") = false := by
      simp [hf]
    simp [setCoerce, hd, h1, h2]

/-- The SET command of the C9 witness. -/
def c9_cmd : BatchCommand := ⟨1, "SET", ["n", "42"], [], []⟩

/-- C9 witness: SET n 42 stores the integer 42, not the string, and the
confirmation text stringifies the integer. -/
theorem c9_witness :
    c9_cmd.args = "n" :: "42" :: [] ∧
    execute_set [] c9_cmd =
      .ok (.str ("Set " ++ "n" ++ " = " ++
          (setCoerce (joinSpace ("42" :: []))).toPyStr),
        dictSet [] (RKey.s "n") (setCoerce (joinSpace ("42" :: [])))) ∧
    setCoerce (joinSpace ("42" :: [])) = Value.int 42 :=
  ⟨rfl, (c9_set_coercion [] c9_cmd "n" "42" [] rfl).1, by decide⟩

/-- Dropping the two dashes of a long-option token that does not start
with three dashes leaves a key that does not start with a dash. -/
theorem no_dash_after_drop_two (cs : List Char)
    (h2 : List.isPrefixOf ['-', '-'] cs = true)
    (h3 : List.isPrefixOf ['-', '-', '-'] cs = false) :
    List.isPrefixOf ['-'] (cs.drop 2) = false := by
  rw [List.isPrefixOf_iff_prefix] at h2
  rw [Bool.eq_false_iff, Ne, List.isPrefixOf_iff_prefix] at h3 ⊢
  obtain ⟨t, rfl⟩ := h2
  intro hp
  simp only [List.cons_append, List.nil_append, List.drop_succ_cons,
    List.drop_zero] at hp
  obtain ⟨u, rfl⟩ := hp
  exact h3 ⟨u, rfl⟩

/-- Dropping the dash of a short-option token that does not start with
two dashes leaves a key that does not start with a dash. -/
theorem no_dash_after_drop_one (cs : List Char)
    (h1 : List.isPrefixOf ['-'] cs = true)
    (h2 : List.isPrefixOf ['-', '-'] cs = false) :
    List.isPrefixOf ['-'] (cs.drop 1) = false := by
  rw [List.isPrefixOf_iff_prefix] at h1
  rw [Bool.eq_false_iff, Ne, List.isPrefixOf_iff_prefix] at h2 ⊢
  obtain ⟨t, rfl⟩ := h1
  intro hp
  simp only [List.cons_append, List.nil_append, List.drop_succ_cons,
    List.drop_zero] at hp
  obtain ⟨u, rfl⟩ := hp
  exact h2 ⟨u, rfl⟩

/-- String form of no_dash_after_drop_two. -/
theorem strDrop_two_no_dash (t : String)
    (h2 : strStartsWith t "--" = true)
    (h3 : strStartsWith t "---" = false) :
    strStartsWith (strDrop t 2) "-" = false := by
  unfold strStartsWith strDrop at *
  exact no_dash_after_drop_two t.data h2 h3

/-- String form of no_dash_after_drop_one. -/
theorem strDrop_one_no_dash (t : String)
    (h1 : strStartsWith t "-" = true)
    (h2 : strStartsWith t "--" = false) :
    strStartsWith (strDrop t 1) "-" = false := by
  unfold strStartsWith strDrop at *
  exact no_dash_after_drop_one t.data h1 h2

/-- A dict update keeps a key predicate when the old dict satisfies it
and the new key does. -/
theorem dictSet_all_keys {κ α : Type} [DecidableEq κ] (P : κ → Bool)
    (d : List (κ × α)) (k : κ) (v : α)
    (hd : d.all (fun p => P p.1) = true) (hk : P k = true) :
    (dictSet d k v).all (fun p => P p.1) = true := by
  unfold dictSet
  split
  · simp only [List.all_map, List.all_eq_true, Function.comp] at *
    intro p hp
    by_cases h : p.1 = k
    · simp [h, hk]
    · simpa [h] using hd p hp
  · simp only [List.all_append, Bool.and_eq_true]
    exact ⟨hd, by simp [hk]⟩

/-- The option-scanning loop only ever inserts keys without a leading
dash, provided no token starts with three dashes (bounded recursion on
the token count). -/
theorem scanParts_no_dash_bounded : ∀ (n : Nat) (parts args : List String)
    (opts : List (String × OptVal)),
    parts.length ≤ n →
    parts.all (fun t => !strStartsWith t "---") = true →
    opts.all (fun p => !strStartsWith p.1 "-") = true →
    ((scanParts parts args opts).2).all (fun p => !strStartsWith p.1 "-") = true := by
  intro n
  induction n with
  | zero =>
    intro parts args opts hlen hts hos
    have hnil : parts = [] :=
      List.eq_nil_of_length_eq_zero (Nat.le_zero.mp hlen)
    subst hnil
    simpa [scanParts] using hos
  | succ n ih =>
    intro parts args opts hlen hts hos
    match parts with
    | [] => simpa [scanParts] using hos
    | [p] =>
      have h3 : strStartsWith p "---" = false := by simpa using hts
      unfold scanParts
      split_ifs with h2 h1
      · exact dictSet_all_keys (fun k => !strStartsWith k "-") opts
          (strDrop p 2) OptVal.flag hos
          (by simp [strDrop_two_no_dash p h2 h3])
      · have hno2 : strStartsWith p "--" = false := by simpa using h2
        exact dictSet_all_keys (fun k => !strStartsWith k "-") opts
          (strDrop p 1) OptVal.flag hos
          (by simp [strDrop_one_no_dash p h1 hno2])
      · exact hos
    | p :: q :: rest =>
      have hall : strStartsWith p "---" = false ∧
          (q :: rest).all (fun t => !strStartsWith t "---") = true := by
        simp only [List.all_cons, Bool.and_eq_true] at hts ⊢
        refine ⟨by simpa using hts.1, hts.2.1, hts.2.2⟩
      have htr : rest.all (fun t => !strStartsWith t "---") = true := by
        have := hall.2
        simp only [List.all_cons, Bool.and_eq_true] at this
        exact this.2
      have hlen1 : (q :: rest).length ≤ n := by
        simp only [List.length_cons] at hlen ⊢
        omega
      have hlen2 : rest.length ≤ n := by
        simp only [List.length_cons] at hlen
        omega
      unfold scanParts
      split_ifs with h2 hq h1
      · exact ih rest args _ hlen2 htr
          (dictSet_all_keys (fun k => !strStartsWith k "-") opts
            (strDrop p 2) (OptVal.str q) hos
            (by simp [strDrop_two_no_dash p h2 hall.1]))
      · exact ih (q :: rest) args _ hlen1 hall.2
          (dictSet_all_keys (fun k => !strStartsWith k "-") opts
            (strDrop p 2) OptVal.flag hos
            (by simp [strDrop_two_no_dash p h2 hall.1]))
      · have hno2 : strStartsWith p "--" = false := by simpa using h2
        exact ih (q :: rest) args _ hlen1 hall.2
          (dictSet_all_keys (fun k => !strStartsWith k "-") opts
            (strDrop p 1) OptVal.flag hos
            (by simp [strDrop_one_no_dash p h1 hno2]))
      · exact ih (q :: rest) (args ++ [p]) opts hlen1 hall.2 hos

/-- C5 counterexample: the token with three dashes yields the option key
with a leading dash (exactly two dashes are stripped), refuting the
claimed invariant for tokens with more than two dashes. -/
theorem c5_counterexample :
    (parse_command_line "CMD ---x" 1 []).map (fun c => c.options) =
      some [("-x", OptVal.flag)] ∧
    strStartsWith "-x" "-" = true := by
  refine ⟨by decide, by decide⟩

/-- C5 (corrected): every key of the options mapping of a parsed Command
Record is free of a leading dash, provided no whitespace token of the
expanded line begins with three dashes; a token with three or more
leading dashes keeps its surplus dashes in the key, because exactly two
are stripped. -/
theorem c5_amended (line : String) (ln : Nat)
    (context : List (String × Value)) (cmd : BatchCommand)
    (htok : (pySplit (expandLine line context)).all
      (fun t => !strStartsWith t "---") = true)
    (hp : parse_command_line line ln context = some cmd) :
    cmd.options.all (fun p => !strStartsWith p.1 "-") = true := by
  unfold parse_command_line at hp
  split at hp
  · exact absurd hp (by simp)
  · match hsplit : pySplit (expandLine line context) with
    | [] => rw [hsplit] at hp; simp at hp
    | command :: parts =>
      rw [hsplit] at hp htok
      simp only [Option.some.injEq] at hp
      rw [← hp]
      simp only [List.all_cons, Bool.and_eq_true] at htok
      exact scanParts_no_dash_bounded parts.length parts [] [] (Nat.le_refl _)
        htok.2 rfl

/-- C5 witness: the amended claim at a concrete command line with a long
option, a value and a short flag. -/
theorem c5_witness :
    (pySplit (expandLine "CMD --opt val -f x" [])).all
      (fun t => !strStartsWith t "---") = true ∧
    parse_command_line "CMD --opt val -f x" 1 [] =
      some ⟨1, "CMD", ["x"], [("opt", OptVal.str "val"), ("f", OptVal.flag)], []⟩ ∧
    (⟨1, "CMD", ["x"], [("opt", OptVal.str "val"), ("f", OptVal.flag)],
      []⟩ : BatchCommand).options.all (fun p => !strStartsWith p.1 "-") = true :=
  ⟨by decide, by decide,
    c5_amended "CMD --opt val -f x" 1 [] _ (by decide) (by decide)⟩

/-- The straight-line run produces one result per command. -/
theorem runSeq_length (eng : Engine) (cmds : List BatchCommand) (context : RCtx) :
    (runSeq eng cmds context).2.length = cmds.length := by
  induction cmds generalizing context with
  | nil => rfl
  | cons c rest ih => simp [runSeq, ih]

/-- The command loop only appends to its accumulator. -/
theorem execBatchGo_append (eng : Engine) (cmds : List BatchCommand)
    (context : RCtx) (acc : List BatchResult) (stop : Bool) :
    execBatchGo eng cmds context acc false stop =
      ((execBatchGo eng cmds context [] false stop).1,
       acc ++ (execBatchGo eng cmds context [] false stop).2) := by
  induction cmds generalizing context acc with
  | nil => simp [execBatchGo]
  | cons c rest ih =>
    simp only [execBatchGo, Bool.false_eq_true, if_false, reduceIte]
    split
    · simp
    · simp only [List.nil_append]
      rw [ih _ (acc ++ [(execute_command eng context c).2]),
        ih _ [(execute_command eng context c).2]]
      simp

/-- With stop_on_error set, the loop runs the straight-line prefix up to
and including the first failing command and stops there. -/
theorem execBatchGo_first_fail (eng : Engine) :
    ∀ (cmds : List BatchCommand) (context : RCtx) (k : Nat),
    k < cmds.length →
    ((runSeq eng cmds context).2.take k).all (fun r => r.success) = true →
    ((runSeq eng cmds context).2.getD k default).success = false →
    execBatchGo eng cmds context [] false true =
      ((runSeq eng (cmds.take (k + 1)) context).1,
       (runSeq eng cmds context).2.take (k + 1)) := by
  intro cmds
  induction cmds with
  | nil =>
    intro context k hk
    simp at hk
  | cons c rest ih =>
    intro context k hk hpre hfail
    cases k with
    | zero =>
      have hf : (execute_command eng context c).2.success = false := by
        simpa [runSeq] using hfail
      simp [execBatchGo, runSeq, hf]
    | succ j =>
      have hs : (execute_command eng context c).2.success = true := by
        have := hpre
        simp only [runSeq, List.take_succ_cons, List.all_cons,
          Bool.and_eq_true] at this
        exact this.1
      have hpre2 : ((runSeq eng rest (execute_command eng context c).1).2.take
          j).all (fun r => r.success) = true := by
        have := hpre
        simp only [runSeq, List.take_succ_cons, List.all_cons,
          Bool.and_eq_true] at this
        exact this.2
      have hfail2 : ((runSeq eng rest
          (execute_command eng context c).1).2.getD j default).success = false := by
        simpa [runSeq] using hfail
      have hk2 : j < rest.length := by
        simp only [List.length_cons] at hk
        omega
      simp only [execBatchGo, Bool.false_eq_true, if_false, reduceIte, hs,
        Bool.not_true, Bool.false_and]
      rw [execBatchGo_append, ih _ j hk2 hpre2 hfail2]
      simp [runSeq, List.take_succ_cons]

/-- C6 (confirmed): when command index k (0-based) is the first to fail
in a run with stop_on_error and without dry_run, execute_batch returns
exactly the k+1 results of the straight-line run of the first k+1
commands (the failing one included), and the final context is that of the
first k+1 commands alone, so no later command is ever executed. -/
theorem c6_stop_on_error (eng : Engine) (ex : BatchExecutor)
    (cmds : List BatchCommand) (k : Nat)
    (hk : k < cmds.length)
    (hpre : ((runSeq eng cmds ex.context).2.take k).all
      (fun r => r.success) = true)
    (hfail : ((runSeq eng cmds ex.context).2.getD k default).success = false) :
    (execute_batch eng ex cmds false true).2 =
      (runSeq eng cmds ex.context).2.take (k + 1) ∧
    (execute_batch eng ex cmds false true).2.length = k + 1 ∧
    (execute_batch eng ex cmds false true).1.context =
      (runSeq eng (cmds.take (k + 1)) ex.context).1 := by
  have h := execBatchGo_first_fail eng cmds ex.context k hk hpre hfail
  refine ⟨?_, ?_, ?_⟩
  · simp [execute_batch, h]
  · simp only [execute_batch, h]
    rw [List.length_take, runSeq_length]
    omega
  · simp [execute_batch, h]

/-- The three commands of the C6 witness: a SET that succeeds, an unknown
command that fails, and a SET that must never run. -/
def c6_cmds : List BatchCommand :=
  [⟨1, "SET", ["a", "1"], [], []⟩,
   ⟨2, "BOGUS", [], [], []⟩,
   ⟨3, "SET", ["b", "2"], [], []⟩]

/-- C6 witness: with the failure at index 1 of three commands, the run
returns exactly 2 results and the context of the 2-command prefix. -/
theorem c6_witness :
    1 < c6_cmds.length ∧
    ((runSeq trivialEngine c6_cmds BatchExecutor.init.context).2.take 1).all
      (fun r => r.success) = true ∧
    ((runSeq trivialEngine c6_cmds
        BatchExecutor.init.context).2.getD 1 default).success = false ∧
    ((execute_batch trivialEngine BatchExecutor.init c6_cmds false true).2 =
      (runSeq trivialEngine c6_cmds BatchExecutor.init.context).2.take 2 ∧
     (execute_batch trivialEngine BatchExecutor.init c6_cmds
        false true).2.length = 2 ∧
     (execute_batch trivialEngine BatchExecutor.init c6_cmds
        false true).1.context =
      (runSeq trivialEngine (c6_cmds.take 2) BatchExecutor.init.context).1) :=
  ⟨by decide, by decide, by decide,
    c6_stop_on_error trivialEngine BatchExecutor.init c6_cmds 1
      (by decide) (by decide) (by decide)⟩
